import Mathlib

/-!
# Verification of the ImageDisplay terminal renderer

Shallow embedding of `imagedisplay.py`: the palette table, the quantizer
wrapper (`compress`), the renderer (`image_to_str`), the frame sequencer
(`TerminalImage.__init__`), and the player (`TerminalImage.show`), together
with theorems settling the specification claims.

Conventions of the embedding:
* Python strings are Lean `String`; terminal escape codes are spelled out
  (the `colorama` constants `Fore.*` / `Style.*` are fixed ANSI sequences).
* A Python exception is modelled by `Option` (`none` = the call raises) or,
  for the player, by an explicit error value.
* Durations are exact rationals (`ℚ`); Python's float division
  `ms / 1000` is modelled as rational division.
* External collaborators (PIL's indexed-color conversion, PIL's `resize`,
  `shutil.get_terminal_size`, ffmpeg) are modelled per the spec's contract
  for them, or taken as parameters where only their position in the
  pipeline matters.
-/

set_option maxRecDepth 8192

namespace ImageDisplay

/-- RGB triple: three 8-bit components. -/
abbrev RGB := Nat × Nat × Nat

-- `colorama.Fore` foreground escape codes (fixed ANSI sequences).
namespace Fore

def BLACK : String := "\x1b[30m"

def RED : String := "\x1b[31m"

def GREEN : String := "\x1b[32m"

def YELLOW : String := "\x1b[33m"

def BLUE : String := "\x1b[34m"

def MAGENTA : String := "\x1b[35m"

def CYAN : String := "\x1b[36m"

def WHITE : String := "\x1b[37m"

end Fore

-- `colorama.Style` escape codes (fixed ANSI sequences).
namespace Style

def BRIGHT : String := "\x1b[1m"

def DIM : String := "\x1b[2m"

def NORMAL : String := "\x1b[22m"

def RESET_ALL : String := "\x1b[0m"

end Style

/-- Line 13: `PIXEL = "█"`. -/
def PIXEL : String := "█"

/-- The block character making up `PIXEL`. -/
def blockChar : Char := '█'

/-- Lines 14-39, `COLORS`: the fixed palette of (RGB triple, display color
code) pairs, in source order. -/
def COLORS : List (RGB × String) :=
  [((30, 34, 36), Fore.BLACK ++ Style.DIM),
   ((10, 39, 53), Fore.BLACK ++ Style.NORMAL),
   ((85, 87, 87), Fore.BLACK ++ Style.BRIGHT),
   ((160, 160, 160), Fore.WHITE ++ Style.DIM),
   ((220, 220, 220), Fore.WHITE ++ Style.NORMAL),
   ((255, 255, 255), Fore.WHITE ++ Style.BRIGHT),
   ((88, 0, 0), Fore.RED ++ Style.DIM),
   ((204, 0, 0), Fore.RED ++ Style.NORMAL),
   ((239, 41, 41), Fore.RED ++ Style.BRIGHT),
   ((52, 103, 4), Fore.GREEN ++ Style.DIM),
   ((78, 154, 6), Fore.GREEN ++ Style.NORMAL),
   ((138, 226, 52), Fore.GREEN ++ Style.BRIGHT),
   ((131, 107, 0), Fore.YELLOW ++ Style.DIM),
   ((169, 160, 0), Fore.YELLOW ++ Style.NORMAL),
   ((252, 233, 79), Fore.YELLOW ++ Style.BRIGHT),
   ((34, 67, 109), Fore.BLUE ++ Style.DIM),
   ((52, 101, 164), Fore.BLUE ++ Style.NORMAL),
   ((173, 127, 168), Fore.BLUE ++ Style.BRIGHT),
   ((90, 60, 90), Fore.MAGENTA ++ Style.DIM),
   ((125, 80, 125), Fore.MAGENTA ++ Style.NORMAL),
   ((190, 130, 190), Fore.MAGENTA ++ Style.BRIGHT),
   ((4, 101, 103), Fore.CYAN ++ Style.DIM),
   ((6, 152, 154), Fore.CYAN ++ Style.NORMAL),
   ((52, 226, 226), Fore.CYAN ++ Style.BRIGHT)]

/-- The three components of an RGB triple as a list, in order (models the
Python unpacking `[*rgb]` / iteration over a 3-tuple). -/
def rgbToList (c : RGB) : List Nat := [c.1, c.2.1, c.2.2]

/-- Lines 52-53, `PALETTE_DATA`: the flattened RGB components of `COLORS`,
padded to 256 slots by repeating `COLORS[0][0]`. -/
def PALETTE_DATA : List Nat :=
  (COLORS.flatMap (fun c => rgbToList c.1)) ++
    (List.replicate (256 - COLORS.length) (rgbToList (COLORS.headD ((0, 0, 0), "")).1)).flatten

/-- The RGB triple stored in palette slot `i` of the 256-slot palette image
built from `PALETTE_DATA` (lines 54-59): components `3*i`, `3*i+1`, `3*i+2`
of the flat palette data; `none` if the slot is out of range. -/
def paletteSlot (i : Nat) : Option RGB := do
  let r ← PALETTE_DATA.get? (3 * i)
  let g ← PALETTE_DATA.get? (3 * i + 1)
  let b ← PALETTE_DATA.get? (3 * i + 2)
  pure (r, g, b)

/-- Lines 78-80, `color`: returns `COLORS[pixel][1]`. A Python `IndexError`
(index out of range for the 24-entry `COLORS` tuple) is modelled as
`none`. -/
def color (pixel : Nat) : Option String := (COLORS.get? pixel).map (fun c => c.2)

/-! ## Renderer (lines 83-97)

`image_to_str` is embedded in two layers: `renderRowA` / `renderGridA`
mirror the nested loop of lines 88-95 exactly, threading the `last`
variable and propagating the `IndexError` of `color` through `Option`;
`renderRowT` / `renderGridT` are the total counterparts, provably equal to
them whenever every pixel index is a valid `COLORS` index. -/

/-- A palette-index image: rows of palette indices (the resized `P`-mode
image the render loop walks, row-major). -/
abbrev PImage := List (List Nat)

/-- A full-color image: rows of RGB pixels. -/
abbrev RGBImage := List (List RGB)

/-- Total display-code lookup, equal to `color` on valid indices. -/
def colorD (pixel : Nat) : String := (COLORS.getD pixel ((0, 0, 0), "")).2

/-- The fully-styled glyph of a pixel: its display color code followed by
the block character (`color(...) + PIXEL`, line 93). -/
def styledGlyph (p : Nat) : String := colorD p ++ PIXEL

/-- Every pixel of the row is a valid index into `COLORS`. -/
def ValidRow (ps : List Nat) : Prop := ∀ p ∈ ps, p < COLORS.length

/-- Every pixel of the grid is a valid index into `COLORS`. -/
def ValidGrid (g : PImage) : Prop := ∀ row ∈ g, ValidRow row

instance (ps : List Nat) : Decidable (ValidRow ps) := by
  unfold ValidRow; infer_instance

instance (g : PImage) : Decidable (ValidGrid g) := by
  unfold ValidGrid; infer_instance

/-- Inner loop of lines 92-95 on one row: for each pixel `p`, compute
`color_pxl = color(p) + PIXEL`, emit `PIXEL` if `color_pxl == last` else
`color_pxl`, and set `last = color_pxl`. Returns the emitted cells and the
final value of `last`; `none` models the `IndexError` of `color`. -/
def renderRowA : Option String → List Nat → Option (List String × Option String)
  | last, [] => some ([], last)
  | last, p :: ps => do
    let c ← color p
    let colorPxl := c ++ PIXEL
    let cell := if some colorPxl = last then PIXEL else colorPxl
    let rest ← renderRowA (some colorPxl) ps
    pure (cell :: rest.1, rest.2)

/-- Outer loop of lines 90-95: rows in order, `last` carried across rows
(it is never reset at a row boundary). -/
def renderGridA : Option String → PImage → Option (List (List String) × Option String)
  | last, [] => some ([], last)
  | last, row :: rows => do
    let r1 ← renderRowA last row
    let r2 ← renderGridA r1.2 rows
    pure (r1.1 :: r2.1, r2.2)

/-- Total counterpart of `renderRowA` (uses `colorD`). -/
def renderRowT : Option String → List Nat → List String × Option String
  | last, [] => ([], last)
  | last, p :: ps =>
    let colorPxl := styledGlyph p
    let cell := if some colorPxl = last then PIXEL else colorPxl
    let rest := renderRowT (some colorPxl) ps
    (cell :: rest.1, rest.2)

/-- Total counterpart of `renderGridA`. -/
def renderGridT : Option String → PImage → List (List String) × Option String
  | last, [] => ([], last)
  | last, row :: rows =>
    let r1 := renderRowT last row
    let r2 := renderGridT r1.2 rows
    (r1.1 :: r2.1, r2.2)

/-- The `image_content` variable of lines 88-95: the grid of emitted cells,
starting from `last = None`. -/
def image_content (grid : PImage) : Option (List (List String)) :=
  (renderGridA none grid).map (fun r => r.1)

/-- Total counterpart of `image_content`. -/
def image_contentT (grid : PImage) : List (List String) :=
  (renderGridT none grid).1

/-- Lines 96-97: rows joined by newlines, followed by the style reset. -/
def frameString (rows : List (List String)) : String :=
  String.intercalate "\n" (rows.map String.join) ++ Style.RESET_ALL

/-- The render stage of `image_to_str` (lines 88-97) applied to a
palette-index grid: build `image_content`, join it, append the reset. -/
def render_frame (grid : PImage) : Option String :=
  (image_content grid).map frameString

/-! ## Quantizer and pipeline (lines 62-87) -/

/-- The RGB triple of palette slot `i`, total (all slots 0..255 are
defined, see `c3_palette_padding`). -/
def paletteSlotD (i : Nat) : RGB := (paletteSlot i).getD (0, 0, 0)

/-- Squared Euclidean RGB distance. -/
def sqDist (a b : RGB) : ℤ :=
  ((a.1 : ℤ) - b.1) ^ 2 + ((a.2.1 : ℤ) - b.2.1) ^ 2 + ((a.2.2 : ℤ) - b.2.2) ^ 2

/-- Modelled from the spec: the external indexed-color conversion
`image.im.convert("P", 0, PALETTE.im)` used by `compress` (line 65) is a
PIL call, not repository code; per spec 4.2 it maps each pixel to the
index of the nearest palette entry under a fixed precomputed RGB metric
(standard Euclidean distance, first slot on ties). -/
def nearestIndex (c : RGB) : Nat :=
  (List.range 256).foldl
    (fun best i => if sqDist c (paletteSlotD i) < sqDist c (paletteSlotD best) then i else best) 0

/-- Lines 62-69, `compress`: convert the full-color image to a
palette-index image over `PALETTE` (the `convert("RGB")` step is the
identity here since `RGBImage` pixels are already RGB). -/
def compress (image : RGBImage) : PImage :=
  image.map (fun row => row.map nearestIndex)

/-- Lines 72-75, `get_terminal_size`: the terminal dimensions reported by
the host (`shutil.get_terminal_size()`, taken as parameters), each reduced
by 2. -/
def get_terminal_size (termW termH : Nat) : Nat × Nat := (termW - 2, termH - 2)

/-- Lines 83-97, `image_to_str`: get the terminal size, `compress` the
image, resize the compressed image to that size, then run the render loop.
`resizeFn` is PIL's `resize(..., Image.BILINEAR)` — an external call,
taken as a parameter. -/
def image_to_str (resizeFn : PImage → Nat × Nat → PImage) (termW termH : Nat)
    (image : RGBImage) : Option String :=
  let wh := get_terminal_size termW termH
  let compresed_image := compress image
  let resized_image := resizeFn compresed_image wh
  render_frame resized_image

/-! ## Spec-side renderer

A second rendering definition following the words of the spec (4.3): per
pixel in row-major order, emit the bare block character exactly when the
fully-styled glyph equals the glyph of the immediately preceding pixel,
the comparison carrying over row boundaries. Used to settle the
refinement-style claims against the source-side loop above. -/

/-- The fully-styled glyphs of a row, as comparison values. -/
def glyphsOf (ps : List Nat) : List (Option String) :=
  ps.map (fun q => some (styledGlyph q))

/-- Spec wording for one row: pair every pixel with the glyph of its
predecessor (`prev` for the first pixel) and emit the bare block character
exactly on equality. -/
def specRenderRow (prev : Option String) (ps : List Nat) : List String :=
  (ps.zip (prev :: glyphsOf ps)).map
    (fun pr => if some (styledGlyph pr.1) = pr.2 then PIXEL else styledGlyph pr.1)

/-- The glyph of the last pixel of `ps`, or `prev` if `ps` is empty: the
comparison value carried into the next row. -/
def lastGlyph (prev : Option String) (ps : List Nat) : Option String :=
  (glyphsOf ps).getLastD prev

/-- Spec wording for the whole grid: rows in order, the carried comparison
value crossing row boundaries un-reset. -/
def specRenderRows : Option String → PImage → List (List String)
  | _, [] => []
  | prev, r :: rs => specRenderRow prev r :: specRenderRows (lastGlyph prev r) rs

/-- The pipeline as the spec words it: quantize the decoded full-color
image to a palette-index image, then resize it to the terminal dimensions
(width − 2, height − 2), then render per-pixel glyphs. -/
def specPipeline (resizeFn : PImage → Nat × Nat → PImage) (termW termH : Nat)
    (image : RGBImage) : String :=
  frameString (specRenderRows none (resizeFn (compress image) (termW - 2, termH - 2)))

/-- Modelled from the spec: the renderer with the run-length optimization
disabled — every pixel emits its fully-styled glyph (the comparison
branch of line 94 always takes the `color_pxl` arm). -/
def render_frame_noopt (grid : PImage) : String :=
  frameString (grid.map (fun row => row.map styledGlyph))

/-- Strip all styling/escape codes from a rendered string, keeping the
sequence of block characters (no escape code and no separator contains the
block character, so this is exactly the decoded visual content). -/
def stripStyling (s : String) : List Char :=
  s.data.filter (fun c => c == blockChar)

/-! ## Frame sequencer and player (lines 114-167) -/

/-- One source frame as the sequencer sees it: its decoded full-color
pixels and its `info` duration metadata in milliseconds (`none` when the
frame carries no `"duration"` key). -/
structure SourceFrame where
  image : RGBImage
  info_duration : Option ℚ

/-- Lines 114-126, `TerminalImage`: the per-frame rendered strings and
the per-frame durations in seconds, in source frame order. -/
structure TerminalImage where
  frames : List String
  durations : List ℚ
deriving DecidableEq, Repr

/-- Lines 116-126, the `TerminalImage` constructor: iterate the source frames in
order; for each, render it with `image_to_str` and record
`frame.info.get("duration", 200) / 1000`. The telemetry print of lines
124-126 goes to the status stream and does not affect the result. `none`
models a render failure propagating out of the constructor. -/
def TerminalImage.init (resizeFn : PImage → Nat × Nat → PImage) (termW termH : Nat)
    (fs : List SourceFrame) : Option TerminalImage := do
  let frames ← fs.mapM (fun f => image_to_str resizeFn termW termH f.image)
  pure ⟨frames, fs.map (fun f => (f.info_duration.getD 200) / 1000)⟩

/-- The recorded duration of one frame (line 122):
`frame.info.get("duration", 200) / 1000` seconds. -/
def recordedDuration (info_duration : Option ℚ) : ℚ :=
  (info_duration.getD 200) / 1000

/-- An observable terminal action of the player: a blocking sleep or a
print to stdout. -/
inductive Event where
  | sleep (d : ℚ)
  | print (s : String)
deriving DecidableEq, Repr

/-- One pass of the playback loop (lines 157-159 / 162-164): for each
index `i` of `frames`, sleep `durations[i]`, then print two blank lines
followed by the frame. -/
def framePass (frames : List String) (durations : List ℚ) : List Event :=
  (List.range frames.length).flatMap
    (fun i => [Event.sleep (durations.getD i 0), Event.print ("\n\n" ++ frames.getD i "")])

/-- Lines 148-164, `TerminalImage.show`, as its finite trace of terminal
events. The frame list is `self.frames` when `animated` and
`[self.frames[0]]` otherwise; `repeat <= -1` enters `while True` and never
terminates, modelled as `none` (no finite trace); otherwise the pass runs
`repeat + 1` times. (`frames[0]` is modelled with `headD`; the theorems
about this model assume at least one frame, as the spec requires.) -/
def TerminalImage.showEvents (img : TerminalImage) (animated : Bool)
    (repeatCount : ℤ) : Option (List Event) :=
  let frames := if animated then img.frames else [img.frames.headD ""]
  if repeatCount ≤ -1 then none
  else some ((List.range (repeatCount + 1).toNat).flatMap (fun _ => framePass frames img.durations))

/-- The sequence of strings printed in a trace, in order. -/
def printedEvents (t : List Event) : List String :=
  t.filterMap (fun e => match e with | Event.print s => some s | Event.sleep _ => none)

/-- A Python exception value, abstracted to the one property the `show`
handler inspects: whether its class derives `Exception`. -/
structure PyException where
  isExceptionSubclass : Bool
deriving DecidableEq, Repr

/-- The `KeyboardInterrupt` exception (the external-signal interruption) derives
`BaseException`, not `Exception`. -/
def keyboardInterrupt : PyException := ⟨false⟩

/-- The `try/except Exception` wrapper of `show` (lines 150, 165-167):
the playback body raised `e` after emitting `bodyOut`. `except Exception`
catches `e` only when its class derives `Exception`; in that case the
handler prints `Style.RESET_ALL` and re-raises `e`; otherwise `e`
propagates directly. The result is the full emitted trace and the
propagated exception. -/
def show_on_failure (bodyOut : List Event) (e : PyException) : List Event × PyException :=
  if e.isExceptionSubclass then (bodyOut ++ [Event.print Style.RESET_ALL], e) else (bodyOut, e)

/-! ## Video fallback of `from_path` (lines 128-146)

The file system is modelled as the list of existing paths; the external
transcoder and the image decode/render are parameters. -/

/-- Lines 143-146: `os.remove(p)` with `FileNotFoundError` ignored; `p`
does not exist afterwards. -/
def removeIgnoringMissing (fs : List String) (p : String) : List String :=
  fs.filter (fun q => !(q == p))

/-- The video fallback of `from_path` (lines 136-146): run the external
transcoder (`video_to_gif`, which may create `out_path` and may raise —
`transcode` returns the new file system in `Except.error` when it
raises), then build the `TerminalImage` from `out_path` (`buildSucceeds`
tells whether `Image.open` + construction succeed); in all cases the
`finally` block removes `out_path`, ignoring a missing file. The result
carries the final file system on both the success and the failure path. -/
def from_path_video_fallback (fs0 : List String) (out_path : String)
    (transcode : List String → Except (List String) (List String))
    (buildSucceeds : List String → Bool) : Except (List String) (List String) :=
  match transcode fs0 with
  | Except.error fs1 => Except.error (removeIgnoringMissing fs1 out_path)
  | Except.ok fs1 =>
    if buildSucceeds fs1 then Except.ok (removeIgnoringMissing fs1 out_path)
    else Except.error (removeIgnoringMissing fs1 out_path)

/-- The file system state a `from_path` call leaves behind, on either
path. -/
def finalState : Except (List String) (List String) → List String
  | Except.ok fs => fs
  | Except.error fs => fs

/-- A concrete two-frame `TerminalImage` used as test input. -/
def sampleStill : TerminalImage := ⟨["F0", "F1"], [1/10, 1/5]⟩

/-- A concrete two-frame `TerminalImage` used as test input. -/
def sampleAnim : TerminalImage := ⟨["A", "B"], [1/10, 1/5]⟩

/-! ## Theorems -/

/-- C3 counterexample input: palette slot 255 has the RGB of slot 0, but the
display-code lookup `color 255` raises; it does not resolve to slot 0's
display code. -/
theorem c3_color_255_raises :
    paletteSlot 255 = paletteSlot 0 ∧ color 255 = none ∧
      color 0 = some (Fore.BLACK ++ Style.DIM) := by
  refine ⟨by decide, by decide, rfl⟩

set_option maxHeartbeats 4000000 in
/-- C3 (amended): every index 0..255 resolves to a valid RGB palette slot,
and every slot from `COLORS.length = 24` up repeats slot 0's RGB triple;
but the display-code lookup `color` is only defined for indices 0..23 and
raises (models `IndexError`) for every index 24..255 instead of yielding
index 0's display code. -/
theorem c3_palette_padding :
    (∀ i, i < 256 → (paletteSlot i).isSome = true) ∧
    (∀ i, 24 ≤ i → i < 256 → paletteSlot i = paletteSlot 0) ∧
    (∀ i, 24 ≤ i → i < 256 → color i = none) ∧
    (∀ i, i < 24 → (color i).isSome = true) := by
  refine ⟨by decide, by decide, ?_, by decide⟩
  intro i h24 _
  simp only [color, Option.map_eq_none']
  exact List.get?_eq_none.mpr (le_trans (by decide) h24)

/-- Witness for `c3_palette_padding` at index 255. -/
theorem c3_palette_padding_witness :
    paletteSlot 255 = paletteSlot 0 ∧ color 30 = none :=
  ⟨c3_palette_padding.2.1 255 (by decide) (by decide),
   c3_palette_padding.2.2.1 30 (by decide) (by decide)⟩

/-! ### Playback helper lemmas -/

theorem framePass_cons (f : String) (fs : List String) (d : ℚ) (ds : List ℚ) :
    framePass (f :: fs) (d :: ds) =
      Event.sleep d :: Event.print ("\n\n" ++ f) :: framePass fs ds := by
  simp only [framePass, List.length_cons, List.range_succ_eq_map]
  simp [List.flatMap_cons, List.flatMap_map, Function.comp_def]

theorem framePass_eq_zip :
    ∀ (frames : List String) (durations : List ℚ), frames.length = durations.length →
      framePass frames durations =
        (frames.zip durations).flatMap
          (fun fd => [Event.sleep fd.2, Event.print ("\n\n" ++ fd.1)]) := by
  intro frames
  induction frames with
  | nil => intro ds _; rfl
  | cons f fs ih =>
    intro ds h
    cases ds with
    | nil => simp at h
    | cons d ds =>
      rw [framePass_cons, List.zip_cons_cons, List.flatMap_cons, ih ds (by simpa using h)]
      rfl

theorem framePass_singleton (f : String) (ds : List ℚ) :
    framePass [f] ds = [Event.sleep (ds.getD 0 0), Event.print ("\n\n" ++ f)] := rfl

theorem range_flatMap_const {α : Type} (l : List α) :
    ∀ n : Nat, (List.range n).flatMap (fun _ => l) = (List.replicate n l).flatten := by
  intro n
  induction n with
  | zero => rfl
  | succ n ih =>
    rw [List.range_succ, List.flatMap_append, ih, List.replicate_succ']
    simp

theorem printedEvents_append (a b : List Event) :
    printedEvents (a ++ b) = printedEvents a ++ printedEvents b :=
  List.filterMap_append a b _

theorem printedEvents_flatten (L : List (List Event)) :
    printedEvents L.flatten = (L.map printedEvents).flatten := by
  induction L with
  | nil => rfl
  | cons a L ih => simp [printedEvents_append, ih]

theorem flatten_replicate_singleton {α : Type} (x : α) :
    ∀ n : Nat, (List.replicate n [x]).flatten = List.replicate n x := by
  intro n
  induction n with
  | zero => rfl
  | succ n ih => simp [List.replicate_succ, ih]

theorem printedEvents_zip_pass (l : List (String × ℚ)) :
    printedEvents (l.flatMap (fun fd => [Event.sleep fd.2, Event.print ("\n\n" ++ fd.1)])) =
      l.map (fun fd => "\n\n" ++ fd.1) := by
  induction l with
  | nil => rfl
  | cons fd l ih => rw [List.flatMap_cons, printedEvents_append, ih]; rfl

/-! ### C1 -/

/-- C1 counterexample: on a `TerminalImage` whose first frame is `"F0"`,
`show(animated=false, repeat=1)` prints frame 0 twice, not exactly once. -/
theorem c1_still_repeat_cex :
    (sampleStill.showEvents false 1).map printedEvents = some ["\n\nF0", "\n\nF0"] ∧
      (sampleStill.showEvents false 1).map (fun t => (printedEvents t).length) ≠ some 1 := by
  constructor <;> decide

/-- C1 (amended): with `animated = false` only frame 0 is ever printed,
but the `repeat` argument still applies: for `repeat = r ≥ 0` the player
prints frame 0 exactly `r + 1` times, and for `r ≤ -1` it loops forever
(no finite trace). The hypotheses mirror the Python precondition that the
image has at least one frame and one duration (otherwise line 154 or 158
raises `IndexError`). -/
theorem c1_still_plays_frame0_each_pass (img : TerminalImage) (r : ℤ)
    (hf : img.frames ≠ []) (hd : img.durations ≠ []) :
    (0 ≤ r → (img.showEvents false r).map printedEvents =
      some (List.replicate (r + 1).toNat ("\n\n" ++ img.frames.headD ""))) ∧
    (r ≤ -1 → img.showEvents false r = none) := by
  refine ⟨fun hr => ?_, fun hr => ?_⟩
  · have hnot : ¬ r ≤ -1 := by omega
    simp only [TerminalImage.showEvents]
    rw [if_neg hnot, if_neg (show ¬ (false = true) by decide)]
    simp only [Option.map_some']
    rw [range_flatMap_const, printedEvents_flatten]
    rw [List.map_replicate, framePass_singleton]
    have : printedEvents [Event.sleep (img.durations.getD 0 0),
        Event.print ("\n\n" ++ img.frames.headD "")] =
        ["\n\n" ++ img.frames.headD ""] := rfl
    rw [this, flatten_replicate_singleton]
  · simp [TerminalImage.showEvents, hr]

/-- Witness for `c1_still_plays_frame0_each_pass` on `sampleStill` with
`repeat = 2`: frame 0 is printed 3 times. -/
theorem c1_still_plays_frame0_each_pass_witness :
    (sampleStill.showEvents false 2).map printedEvents =
      some (List.replicate ((2 : ℤ) + 1).toNat ("\n\n" ++ sampleStill.frames.headD "")) :=
  (c1_still_plays_frame0_each_pass sampleStill 2 (by decide) (by decide)).1 (by decide)

/-! ### C4 -/

/-- C4: with `animated = true` and `repeat = r ≥ 0`, the trace is exactly
`r + 1` passes over the frames in source order, each frame preceded by a
sleep of its recorded duration, so exactly `(r + 1) * N` frames are
printed. -/
theorem c4_animated_repeat (img : TerminalImage)
    (hlen : img.frames.length = img.durations.length) (r : ℤ) (hr : 0 ≤ r) :
    img.showEvents true r =
      some ((List.replicate (r + 1).toNat
        ((img.frames.zip img.durations).flatMap
          (fun fd => [Event.sleep fd.2, Event.print ("\n\n" ++ fd.1)]))).flatten) ∧
    (img.showEvents true r).map (fun t => (printedEvents t).length) =
      some ((r + 1).toNat * img.frames.length) := by
  have hnot : ¬ r ≤ -1 := by omega
  have htr : img.showEvents true r =
      some ((List.replicate (r + 1).toNat
        ((img.frames.zip img.durations).flatMap
          (fun fd => [Event.sleep fd.2, Event.print ("\n\n" ++ fd.1)]))).flatten) := by
    simp only [TerminalImage.showEvents]
    rw [if_neg hnot]
    simp only [if_true]
    rw [range_flatMap_const, framePass_eq_zip img.frames img.durations hlen]
  refine ⟨htr, ?_⟩
  rw [htr]
  simp only [Option.map_some', Option.some.injEq]
  rw [printedEvents_flatten, List.map_replicate, printedEvents_zip_pass]
  rw [List.length_flatten, List.map_replicate]
  simp [List.length_zip, hlen.symm, Nat.mul_comm]

/-- Witness for `c4_animated_repeat` on a 2-frame image with `repeat = 1`:
4 frames are printed. -/
theorem c4_animated_repeat_witness :
    (sampleAnim.showEvents true 1).map (fun t => (printedEvents t).length) =
      some (((1 : ℤ) + 1).toNat * sampleAnim.frames.length) :=
  (c4_animated_repeat sampleAnim rfl 1 (by decide)).2

/-! ### C2 -/

/-- C2 (code bug): an interruption whose class does not derive `Exception`
— in particular `KeyboardInterrupt`, the external-signal interruption —
is not caught by the `except Exception` handler of `show`, so it
propagates without `Style.RESET_ALL` ever being printed and the terminal
is left in a colored state, contradicting the claim; an exception whose
class does derive `Exception` is caught and the reset is printed. -/
theorem c2_keyboard_interrupt_skips_reset :
    (show_on_failure [Event.sleep (1/10)] keyboardInterrupt).1 = [Event.sleep (1/10)] ∧
    Event.print Style.RESET_ALL ∉ (show_on_failure [Event.sleep (1/10)] keyboardInterrupt).1 ∧
    (show_on_failure [Event.sleep (1/10)] keyboardInterrupt).2 = keyboardInterrupt ∧
    (show_on_failure [Event.sleep (1/10)] ⟨true⟩).1 =
      [Event.sleep (1/10), Event.print Style.RESET_ALL] := by
  exact ⟨rfl, by decide, rfl, rfl⟩

/-! ### C8 -/

/-- C8: the duration recorded for frame `i` is its `"duration"` metadata
(milliseconds) divided by 1000 when present, and `0.2` seconds (= `1/5`)
when absent. -/
theorem c8_recorded_durations (resizeFn : PImage → Nat × Nat → PImage) (termW termH : Nat)
    (fs : List SourceFrame) (img : TerminalImage)
    (h : TerminalImage.init resizeFn termW termH fs = some img)
    (i : Nat) (hi : i < fs.length) :
    img.durations.getD i 0 =
      match (fs.getD i ⟨[], none⟩).info_duration with
      | some m => m / 1000
      | none => 1/5 := by
  have hdur : img.durations = fs.map (fun f => (f.info_duration.getD 200) / 1000) := by
    have lem : ∀ (x : Option (List String)) (D : List ℚ) (im : TerminalImage),
        (x.bind fun frames => some ⟨frames, D⟩) = some im → im.durations = D := by
      intro x D im hx
      cases x with
      | none => simp at hx
      | some frames =>
        rw [Option.some_bind] at hx
        cases hx
        rfl
    exact lem _ _ _ h
  have key : ∀ sf : SourceFrame,
      (sf.info_duration.getD 200) / 1000 =
        match sf.info_duration with
        | some m => m / 1000
        | none => (1 : ℚ)/5 := by
    intro sf
    cases hd : sf.info_duration with
    | none => simp only [hd, Option.getD_none]; norm_num
    | some m => simp only [hd, Option.getD_some]
  rw [hdur, List.getD_eq_get?, List.get?_map, List.get?_eq_get hi]
  have hget : fs.getD i ⟨[], none⟩ = fs[i] := by
    rw [List.getD_eq_get?, List.get?_eq_get hi]; rfl
  rw [hget]
  simp only [Option.map_some', Option.getD_some, List.get_eq_getElem]
  exact key _

/-- Witness for `c8_recorded_durations`: a frame with no duration metadata
gets `1/5` seconds. -/
theorem c8_recorded_durations_witness :
    (TerminalImage.mk [Style.RESET_ALL] [(200 : ℚ)/1000]).durations.getD 0 0 = 1/5 :=
  c8_recorded_durations (fun _ _ => []) 3 3 [⟨[], none⟩]
    ⟨[Style.RESET_ALL], [(200 : ℚ)/1000]⟩ rfl 0 (by decide)

/-! ### C9 -/

/-- C9: after the video-transcode fallback of `from_path` returns — on the
success path and on every failure path (transcoder raised, or the decode
or construction of the transcoded file failed) — the temporary file
`<input path>.temp.gif` does not exist. -/
theorem c9_temp_file_removed (fs0 : List String) (out_path : String)
    (transcode : List String → Except (List String) (List String))
    (buildSucceeds : List String → Bool) :
    out_path ∉ finalState (from_path_video_fallback fs0 out_path transcode buildSucceeds) := by
  unfold from_path_video_fallback
  cases transcode fs0 with
  | error fs1 => simp [finalState, removeIgnoringMissing, List.mem_filter]
  | ok fs1 =>
    by_cases hb : buildSucceeds fs1 = true <;>
      simp [hb, finalState, removeIgnoringMissing, List.mem_filter]

/-! ### Renderer helper lemmas -/

theorem glyphsOf_cons (p : Nat) (ps : List Nat) :
    glyphsOf (p :: ps) = some (styledGlyph p) :: glyphsOf ps := rfl

theorem color_eq_some (p : Nat) (h : p < COLORS.length) : color p = some (colorD p) := by
  simp only [color, colorD]
  rw [List.get?_eq_get h, List.getD_eq_get?, List.get?_eq_get h]
  rfl

theorem renderRowA_eq_total (ps : List Nat) (hv : ValidRow ps) :
    ∀ last : Option String, renderRowA last ps = some (renderRowT last ps) := by
  induction ps with
  | nil => intro last; rfl
  | cons p ps ih =>
    intro last
    have hp : p < COLORS.length := hv p (List.mem_cons_self p ps)
    have hps : ValidRow ps := fun q hq => hv q (List.mem_cons_of_mem p hq)
    simp only [renderRowA, renderRowT, color_eq_some p hp, Option.some_bind,
      ih hps, styledGlyph]
    rfl

theorem renderGridA_eq_total (g : PImage) (hv : ValidGrid g) :
    ∀ last : Option String, renderGridA last g = some (renderGridT last g) := by
  induction g with
  | nil => intro last; rfl
  | cons row rows ih =>
    intro last
    have hrow : ValidRow row := hv row (List.mem_cons_self row rows)
    have hrows : ValidGrid rows := fun r hr => hv r (List.mem_cons_of_mem row hr)
    simp only [renderGridA, renderGridT, renderRowA_eq_total row hrow,
      Option.some_bind, ih hrows]
    rfl

theorem renderRowT_append (as : List Nat) :
    ∀ (bs : List Nat) (last : Option String),
      renderRowT last (as ++ bs) =
        ((renderRowT last as).1 ++ (renderRowT (renderRowT last as).2 bs).1,
          (renderRowT (renderRowT last as).2 bs).2) := by
  induction as with
  | nil => intro bs last; rfl
  | cons p as ih =>
    intro bs last
    simp only [List.cons_append, renderRowT, List.append_eq, ih]

theorem renderGridT_flatten (rows : PImage) :
    ∀ last : Option String,
      (renderGridT last rows).1.flatten = (renderRowT last rows.flatten).1 ∧
      (renderGridT last rows).2 = (renderRowT last rows.flatten).2 := by
  induction rows with
  | nil => intro last; exact ⟨rfl, rfl⟩
  | cons r rs ih =>
    intro last
    simp only [renderGridT, List.flatten_cons, List.flatten_cons, renderRowT_append,
      List.flatten]
    constructor
    · show (renderRowT last r).1 ++ (renderGridT (renderRowT last r).2 rs).1.flatten = _
      rw [(ih (renderRowT last r).2).1]
    · show (renderGridT (renderRowT last r).2 rs).2 = _
      rw [(ih (renderRowT last r).2).2]

theorem renderRowT_cells_getD (ps : List Nat) :
    ∀ (last : Option String) (i : Nat), i < ps.length →
      (renderRowT last ps).1.getD i "" =
        if some (styledGlyph (ps.getD i 0)) = (last :: glyphsOf ps).getD i none
        then PIXEL else styledGlyph (ps.getD i 0) := by
  induction ps with
  | nil => intro last i hi; simp at hi
  | cons p ps ih =>
    intro last i hi
    cases i with
    | zero => simp only [renderRowT, List.getD_cons_zero]
    | succ j =>
      have hj : j < ps.length := by simpa using hi
      simp only [renderRowT, List.getD_cons_succ, glyphsOf_cons]
      exact ih (some (styledGlyph p)) j hj

theorem renderRowT_state (ps : List Nat) :
    ∀ last : Option String, (renderRowT last ps).2 = lastGlyph last ps := by
  induction ps with
  | nil => intro last; rfl
  | cons p ps ih =>
    intro last
    simp only [renderRowT, ih, lastGlyph, glyphsOf_cons, List.getLastD_cons]

theorem renderRowT_cells_eq_spec (ps : List Nat) :
    ∀ last : Option String, (renderRowT last ps).1 = specRenderRow last ps := by
  induction ps with
  | nil => intro last; rfl
  | cons p ps ih =>
    intro last
    simp only [renderRowT, specRenderRow, glyphsOf_cons, List.zip_cons_cons,
      List.map_cons]
    rw [ih (some (styledGlyph p))]
    rfl

theorem renderGridT_cells_eq_spec (rows : PImage) :
    ∀ last : Option String, (renderGridT last rows).1 = specRenderRows last rows := by
  induction rows with
  | nil => intro last; rfl
  | cons r rs ih =>
    intro last
    simp only [renderGridT, specRenderRows, renderRowT_cells_eq_spec,
      renderRowT_state, ih]

theorem styledGlyph_ne_PIXEL : ∀ p : Nat, p < COLORS.length → styledGlyph p ≠ PIXEL := by
  decide

theorem validRow_flatten (g : PImage) (hv : ValidGrid g) : ValidRow g.flatten := by
  intro p hp
  obtain ⟨row, hrow, hpin⟩ := List.mem_flatten.mp hp
  exact hv row hrow p hpin

theorem getD_mem_of_lt {α : Type} (l : List α) (i : Nat) (d : α) (h : i < l.length) :
    l.getD i d ∈ l := by
  rw [List.getD_eq_get?, List.get?_eq_get h]
  exact List.get_mem l i h

theorem glyphsOf_getD (ps : List Nat) (j : Nat) (hj : j < ps.length) :
    (glyphsOf ps).getD j none = some (styledGlyph (ps.getD j 0)) := by
  simp only [glyphsOf]
  rw [List.getD_eq_get?, List.get?_map, List.get?_eq_get hj,
    List.getD_eq_get?, List.get?_eq_get hj]
  rfl

theorem headD_eq_getD {α : Type} (l : List α) (d : α) : l.headD d = l.getD 0 d := by
  cases l <;> rfl

theorem image_content_eq_total (grid : PImage) (hv : ValidGrid grid)
    (content : List (List String)) (hc : image_content grid = some content) :
    content = image_contentT grid := by
  rw [image_content, renderGridA_eq_total grid hv none, Option.map_some',
    Option.some.injEq] at hc
  rw [← hc, image_contentT]

theorem image_contentT_flatten (grid : PImage) :
    (image_contentT grid).flatten = (renderRowT none grid.flatten).1 := by
  rw [image_contentT, (renderGridT_flatten grid none).1]

/-! ### C5 -/

/-- C5: in the rendered content of a frame, the cell at flattened
(row-major, row boundaries not resetting the comparison) position `i` is
the bare block character if and only if `i` has a predecessor whose
fully-styled glyph is textually identical to pixel `i`'s fully-styled
glyph. -/
theorem c5_run_length_bare_iff (grid : PImage) (hv : ValidGrid grid)
    (content : List (List String)) (hc : image_content grid = some content)
    (i : Nat) (hi : i < grid.flatten.length) :
    content.flatten.getD i "" = PIXEL ↔
      0 < i ∧ styledGlyph (grid.flatten.getD (i - 1) 0) =
        styledGlyph (grid.flatten.getD i 0) := by
  have hvp : ValidRow grid.flatten := validRow_flatten grid hv
  rw [image_content_eq_total grid hv content hc, image_contentT_flatten,
    renderRowT_cells_getD grid.flatten none i hi]
  cases i with
  | zero =>
    rw [List.getD_cons_zero, if_neg (by simp)]
    constructor
    · intro hpx
      exact absurd hpx
        (styledGlyph_ne_PIXEL _ (hvp _ (getD_mem_of_lt grid.flatten 0 0 hi)))
    · intro hand
      exact absurd hand.1 (lt_irrefl 0)
  | succ j =>
    have hj : j < grid.flatten.length := lt_trans (Nat.lt_succ_self j) hi
    rw [List.getD_cons_succ, glyphsOf_getD grid.flatten j hj]
    rw [show j + 1 - 1 = j by omega]
    by_cases heq : styledGlyph (grid.flatten.getD (j + 1) 0) =
        styledGlyph (grid.flatten.getD j 0)
    · rw [if_pos (congrArg some heq)]
      constructor
      · intro _
        exact ⟨Nat.succ_pos j, heq.symm⟩
      · intro _
        rfl
    · rw [if_neg (fun hcon => heq (Option.some.inj hcon))]
      constructor
      · intro hpx
        exact absurd hpx
          (styledGlyph_ne_PIXEL _ (hvp _ (getD_mem_of_lt grid.flatten (j + 1) 0 hi)))
      · intro hand
        exact absurd hand.2.symm heq

/-- Witness for `c5_run_length_bare_iff` on the grid `[[0,0],[0,1]]` at
flattened position 2 (first pixel of the second row, suppressed because
the previous row ended with the same glyph). -/
theorem c5_run_length_bare_iff_witness :
    ([[styledGlyph 0, PIXEL], [PIXEL, styledGlyph 1]] :
        List (List String)).flatten.getD 2 "" = PIXEL :=
  (c5_run_length_bare_iff [[0, 0], [0, 1]] (by decide)
    [[styledGlyph 0, PIXEL], [PIXEL, styledGlyph 1]] rfl 2 (by decide)).mpr
    ⟨by decide, rfl⟩

/-! ### C10 -/

/-- C10: every render call starts with the comparison state re-initialized
(`last = None`, line 89), so the first emitted cell of every rendered
frame is the first pixel's fully-styled glyph and never the bare block
character. -/
theorem c10_first_glyph_fully_styled (grid : PImage) (hv : ValidGrid grid)
    (content : List (List String)) (hc : image_content grid = some content)
    (hne : grid.flatten ≠ []) :
    content.flatten.headD "" = styledGlyph (grid.flatten.getD 0 0) ∧
      content.flatten.headD "" ≠ PIXEL := by
  have hi : 0 < grid.flatten.length := List.length_pos.mpr hne
  have hvp : ValidRow grid.flatten := validRow_flatten grid hv
  rw [image_content_eq_total grid hv content hc, image_contentT_flatten,
    headD_eq_getD, renderRowT_cells_getD grid.flatten none 0 hi,
    List.getD_cons_zero, if_neg (by simp)]
  exact ⟨rfl, styledGlyph_ne_PIXEL _ (hvp _ (getD_mem_of_lt grid.flatten 0 0 hi))⟩

/-- Witness for `c10_first_glyph_fully_styled` on the grid `[[0, 0]]`. -/
theorem c10_first_glyph_fully_styled_witness :
    ([[styledGlyph 0, PIXEL]] : List (List String)).flatten.headD "" =
        styledGlyph (([[0, 0]] : PImage).flatten.getD 0 0) ∧
      ([[styledGlyph 0, PIXEL]] : List (List String)).flatten.headD "" ≠ PIXEL :=
  c10_first_glyph_fully_styled [[0, 0]] (by decide) [[styledGlyph 0, PIXEL]] rfl
    (by decide)

/-! ### C7 -/

/-- C7: `image_to_str` follows the pipeline order the spec states: the
full-color image is quantized (`compress`) first, the quantized image is
resized to `(terminal width − 2, terminal height − 2)`, and the per-pixel
glyph rendering runs on the resized result (for any resize function, since
the resize is an external call). -/
theorem c7_quantize_before_resize (resizeFn : PImage → Nat × Nat → PImage)
    (termW termH : Nat) (image : RGBImage)
    (hv : ValidGrid (resizeFn (compress image) (termW - 2, termH - 2))) :
    image_to_str resizeFn termW termH image =
      some (specPipeline resizeFn termW termH image) := by
  simp only [image_to_str, get_terminal_size, render_frame, image_content,
    renderGridA_eq_total _ hv, Option.map_some', specPipeline]
  rw [renderGridT_cells_eq_spec]

/-- Witness for `c7_quantize_before_resize` with a constant resize
function and a one-pixel image. -/
theorem c7_quantize_before_resize_witness :
    image_to_str (fun _ _ => [[0]]) 3 3 [[(30, 34, 36)]] =
      some (specPipeline (fun _ _ => [[0]]) 3 3 [[(30, 34, 36)]]) :=
  c7_quantize_before_resize (fun _ _ => [[0]]) 3 3 [[(30, 34, 36)]] (by decide)

/-! ### Stripping lemmas for C6 -/

theorem stripStyling_append (a b : String) :
    stripStyling (a ++ b) = stripStyling a ++ stripStyling b := by
  simp only [stripStyling, String.data_append, List.filter_append]

theorem stripStyling_foldl (l : List String) :
    ∀ init : String,
      stripStyling (l.foldl (fun r t => r ++ t) init) =
        stripStyling init ++ (l.map stripStyling).flatten := by
  induction l with
  | nil => intro init; simp
  | cons a l ih =>
    intro init
    simp only [List.foldl_cons, ih, List.map_cons, List.flatten_cons,
      stripStyling_append, List.append_assoc]

theorem stripStyling_join (l : List String) :
    stripStyling (String.join l) = (l.map stripStyling).flatten := by
  rw [String.join, stripStyling_foldl]
  rfl

theorem stripStyling_intercalate_go (sep : String) (hsep : stripStyling sep = []) :
    ∀ (as : List String) (acc : String),
      stripStyling (String.intercalate.go acc sep as) =
        stripStyling acc ++ (as.map stripStyling).flatten := by
  intro as
  induction as with
  | nil => intro acc; simp [String.intercalate.go]
  | cons b bs ih =>
    intro acc
    simp only [String.intercalate.go, ih, List.map_cons, List.flatten_cons,
      stripStyling_append, hsep, List.append_nil, List.append_assoc]

theorem stripStyling_intercalate (sep : String) (hsep : stripStyling sep = [])
    (l : List String) :
    stripStyling (String.intercalate sep l) = (l.map stripStyling).flatten := by
  cases l with
  | nil => rfl
  | cons a as =>
    rw [String.intercalate, stripStyling_intercalate_go sep hsep as a]
    rfl

theorem strip_PIXEL : stripStyling PIXEL = [blockChar] := by decide

theorem strip_styledGlyph :
    ∀ p : Nat, p < COLORS.length → stripStyling (styledGlyph p) = [blockChar] := by
  decide

theorem strip_newline : stripStyling "\n" = [] := by decide

theorem strip_reset : stripStyling Style.RESET_ALL = [] := by decide

theorem renderRowT_cells_strip (ps : List Nat) (hv : ValidRow ps) :
    ∀ last : Option String, ∀ c ∈ (renderRowT last ps).1, stripStyling c = [blockChar] := by
  induction ps with
  | nil => intro last c hcm; simp [renderRowT] at hcm
  | cons p ps ih =>
    intro last c hcm
    have hp : p < COLORS.length := hv p (List.mem_cons_self p ps)
    have hps : ValidRow ps := fun q hq => hv q (List.mem_cons_of_mem p hq)
    simp only [renderRowT, List.mem_cons] at hcm
    rcases hcm with hc | hc
    · rw [hc]
      by_cases hb : some (styledGlyph p) = last
      · rw [if_pos hb]; exact strip_PIXEL
      · rw [if_neg hb]; exact strip_styledGlyph p hp
    · exact ih hps (some (styledGlyph p)) c hc

theorem renderGridT_cells_strip (rows : PImage) (hv : ValidGrid rows) :
    ∀ last : Option String, ∀ row ∈ (renderGridT last rows).1, ∀ c ∈ row,
      stripStyling c = [blockChar] := by
  induction rows with
  | nil => intro last row hrm; simp [renderGridT] at hrm
  | cons r rs ih =>
    intro last row hrm c hcm
    have hr : ValidRow r := hv r (List.mem_cons_self r rs)
    have hrs : ValidGrid rs := fun q hq => hv q (List.mem_cons_of_mem r hq)
    simp only [renderGridT, List.mem_cons] at hrm
    rcases hrm with hrow | hrow
    · exact renderRowT_cells_strip r hr last c (hrow ▸ hcm)
    · exact ih hrs (renderRowT last r).2 row hrow c hcm

theorem renderRowT_length (ps : List Nat) :
    ∀ last : Option String, (renderRowT last ps).1.length = ps.length := by
  induction ps with
  | nil => intro last; rfl
  | cons p ps ih => intro last; simp only [renderRowT, List.length_cons, ih]

theorem renderGridT_row_lengths (rows : PImage) :
    ∀ last : Option String,
      ((renderGridT last rows).1).map List.length = rows.map List.length := by
  induction rows with
  | nil => intro last; rfl
  | cons r rs ih =>
    intro last
    simp only [renderGridT, List.map_cons, renderRowT_length, ih]

theorem flatten_of_all_singleton {α : Type} (L : List (List α)) (x : α) :
    (∀ a ∈ L, a = [x]) → L.flatten = List.replicate L.length x := by
  induction L with
  | nil => intro _; rfl
  | cons a L ih =>
    intro h
    rw [List.flatten_cons, h a (List.mem_cons_self a L),
      ih (fun b hb => h b (List.mem_cons_of_mem a hb))]
    rfl

theorem strip_join_cells (cells : List String)
    (h : ∀ c ∈ cells, stripStyling c = [blockChar]) :
    stripStyling (String.join cells) = List.replicate cells.length blockChar := by
  rw [stripStyling_join]
  have hall : ∀ a ∈ cells.map stripStyling, a = [blockChar] := by
    intro a ha
    obtain ⟨c, hc, hac⟩ := List.mem_map.mp ha
    rw [← hac]
    exact h c hc
  rw [flatten_of_all_singleton _ blockChar hall, List.length_map]

theorem flatten_map_replicate_length (rows : List (List String)) (x : Char) :
    (rows.map (fun row => List.replicate row.length x)).flatten =
      List.replicate ((rows.map List.length).sum) x := by
  induction rows with
  | nil => rfl
  | cons r rs ih =>
    simp only [List.map_cons, List.flatten_cons, List.sum_cons, ih, List.replicate_add]

theorem strip_frameString (rows : List (List String))
    (h : ∀ row ∈ rows, ∀ c ∈ row, stripStyling c = [blockChar]) :
    stripStyling (frameString rows) =
      List.replicate ((rows.map List.length).sum) blockChar := by
  rw [frameString, stripStyling_append, strip_reset, List.append_nil,
    stripStyling_intercalate _ strip_newline, List.map_map]
  have hmap : rows.map (stripStyling ∘ String.join) =
      rows.map (fun row => List.replicate row.length blockChar) :=
    List.map_congr_left (fun row hrow => strip_join_cells row (h row hrow))
  rw [hmap, flatten_map_replicate_length]

/-! ### C6 -/

/-- C6: stripping all styling/escape codes, a frame rendered with the
run-length optimization and the same frame rendered with every pixel
fully styled contain the identical sequence of block characters. -/
theorem c6_strip_opt_eq_noopt (grid : PImage) (hv : ValidGrid grid)
    (s : String) (hs : render_frame grid = some s) :
    stripStyling s = stripStyling (render_frame_noopt grid) := by
  have hs' : s = frameString (renderGridT none grid).1 := by
    rw [render_frame, image_content, renderGridA_eq_total grid hv none] at hs
    simp only [Option.map_some', Option.some.injEq] at hs
    exact hs.symm
  have hno : ∀ row ∈ grid.map (fun prow => prow.map styledGlyph), ∀ c ∈ row,
      stripStyling c = [blockChar] := by
    intro row hrow c hc
    obtain ⟨prow, hprow, hpr⟩ := List.mem_map.mp hrow
    rw [← hpr] at hc
    obtain ⟨p, hp, hpc⟩ := List.mem_map.mp hc
    rw [← hpc]
    exact strip_styledGlyph p (hv prow hprow p hp)
  rw [hs', strip_frameString _ (renderGridT_cells_strip grid hv none),
    render_frame_noopt, strip_frameString _ hno, renderGridT_row_lengths]
  congr 1
  simp [List.map_map, Function.comp_def]

/-- Witness for `c6_strip_opt_eq_noopt` on the grid `[[0, 0]]`. -/
theorem c6_strip_opt_eq_noopt_witness :
    stripStyling (frameString [[styledGlyph 0, PIXEL]]) =
      stripStyling (render_frame_noopt [[0, 0]]) :=
  c6_strip_opt_eq_noopt [[0, 0]] (by decide) (frameString [[styledGlyph 0, PIXEL]]) rfl

end ImageDisplay
